import Mathlib

/-!
Shallow embedding of the attention module of the seq2seq repository
(seq2seq/models/attention.py): GlobalAttention, SDPAttention (scaled
dot-product attention) and MultiHeadAttention, together with the masking,
softmax and dropout pipeline they share.

Tensors are modelled as total functions from natural-number indices to real
numbers, paired with explicit shape fields wherever the code reads sizes.
Scores that the code fills with negative infinity before softmax live in the
extended reals; expE extends the exponential with exp at bottom equal to 0,
which is exactly the value the floating-point exp produces on -inf, so the
softmax of a partially masked row keeps its usual closed form.  Dropout is
modelled with an explicit stream of keep decisions; torch dropout is the
identity in eval mode and at rate 0, which the definition reflects.
-/

noncomputable section

/-- Rank-3 real tensor with its shape, indexed batch, time, feature
(out-of-range indices carry irrelevant junk values). -/
structure Tensor3 where
  b : ℕ
  t : ℕ
  d : ℕ
  data : ℕ → ℕ → ℕ → ℝ

/-- Rank-2 boolean tensor with its shape, as passed to set_mask. -/
structure BoolTensor2 where
  b : ℕ
  t : ℕ
  data : ℕ → ℕ → Bool

/-- Exponential extended to EReal scores: exp of bottom (the negative
infinity written by masked_fill_) is 0, as for floating-point exp. -/
def expE (x : EReal) : ℝ := if x = ⊥ then 0 else Real.exp x.toReal

/-- Softmax along an axis of length n, the meaning of torch nn.Softmax
applied along the last axis of a 2-d view. -/
def softmaxRow (n : ℕ) (x : ℕ → EReal) (c : ℕ) : ℝ :=
  expE (x c) / ∑ j ∈ Finset.range n, expE (x j)

/-- Application of torch.nn.Linear with weight matrix W and bias vector:
output o is the inner product of row o of W with x, plus the bias. -/
def linearAp (dIn : ℕ) (W : ℕ → ℕ → ℝ) (bias : ℕ → ℝ) (x : ℕ → ℝ) (o : ℕ) : ℝ :=
  (∑ j ∈ Finset.range dIn, W o j * x j) + bias o

/-- Pointwise application of a linear layer along the feature axis of a
batched sequence, the meaning of linear(x.view(-1, d)).view(b, t, d). -/
def projAll (n : ℕ) (W : ℕ → ℕ → ℝ) (bias : ℕ → ℝ) (x : ℕ → ℕ → ℕ → ℝ) :
    ℕ → ℕ → ℕ → ℝ :=
  fun i a e => linearAp n W bias (x i a) e

/-- Batched matrix multiplication torch.bmm, contracting over an inner
dimension of size p. -/
def bmm3 (p : ℕ) (A B : ℕ → ℕ → ℕ → ℝ) : ℕ → ℕ → ℕ → ℝ :=
  fun i a c => ∑ x ∈ Finset.range p, A i a x * B i x c

/-- transpose(1, 2) of a batched matrix: swap the two trailing axes. -/
def transpose12 (A : ℕ → ℕ → ℕ → ℝ) : ℕ → ℕ → ℕ → ℝ := fun i a c => A i c a

/-- torch.nn.Dropout on a rank-3 tensor, with the Bernoulli draws made
explicit as a keep stream: identity in eval mode and at rate 0, otherwise
kept entries are rescaled by 1 / (1 - p) and dropped entries become 0. -/
def dropoutF (p : ℝ) (training : Bool) (keep : ℕ → ℕ → ℕ → Bool)
    (x : ℕ → ℕ → ℕ → ℝ) : ℕ → ℕ → ℕ → ℝ :=
  fun i a c =>
    if training = false ∨ p = 0 then x i a c
    else if keep i a c then x i a c / (1 - p) else 0

/-- Index map realising torch expand for a single axis: a source axis of
length src expands to length tgt only when the lengths agree or src is the
singleton 1; any other combination is a runtime size error. -/
def bcastIdx (src tgt : ℕ) : Option (ℕ → ℕ) :=
  if src = tgt then some id else if src = 1 then some (fun _ => 0) else none

/-- Broadcast of the stored mask (shape mb x mt) performed by
mask.unsqueeze(1).expand(b, t_q, t_k): axis 0 expands mb to b, the
unsqueezed singleton axis expands to t_q freely, and the trailing axis
expands mt to t_k.  The inner Option is the presence of a mask, the outer
Option is none exactly when expand raises a size error. -/
def expandedMask (b t_k : ℕ) (mask : Option BoolTensor2) :
    Option (Option (ℕ → ℕ → Bool)) :=
  match mask with
  | none => some none
  | some m =>
    match bcastIdx m.b b, bcastIdx m.t t_k with
    | some f, some g => some (some (fun i c => m.data (f i) (g c)))
    | _, _ => none

/-- Masked fill of the scaled scores, in the order of the source: first the
expanded external mask overwrites flagged positions with negative infinity,
then, when causal is set, the strict upper triangle (key index exceeding
query index, triu_(1) of an all-ones matrix) is overwritten as well. -/
def applyMasks (em : Option (ℕ → ℕ → Bool)) (causal : Bool)
    (s : ℕ → ℕ → ℕ → ℝ) : ℕ → ℕ → ℕ → EReal :=
  fun i a c =>
    let afterMask : EReal :=
      match em with
      | none => ((s i a c : ℝ) : EReal)
      | some mm => if mm i c then (⊥ : EReal) else ((s i a c : ℝ) : EReal)
    if causal = true ∧ a + 1 ≤ c then (⊥ : EReal) else afterMask

/-- SDPAttention module state: the construction configuration (causal flag,
dropout rate, train/eval mode of the enclosed nn.Dropout) and the persisted
mask set by set_mask (None at construction). -/
structure SDPAttention where
  causal : Bool
  dropout_p : ℝ
  training : Bool
  mask : Option BoolTensor2

/-- SDPAttention.set_mask: store the argument, replacing any previous mask. -/
def SDPAttention.set_mask (self : SDPAttention) (m : Option BoolTensor2) :
    SDPAttention :=
  { self with mask := m }

/-- Scaled scores qk of SDPAttention.forward before any masking:
torch.bmm(q, k.transpose(1, 2)) divided by dim_k ** 0.5. -/
def sdpaScores (d : ℕ) (q k : ℕ → ℕ → ℕ → ℝ) : ℕ → ℕ → ℕ → ℝ :=
  fun i a c => bmm3 d q (transpose12 k) i a c / Real.sqrt d

/-- Post-softmax attention weights sm_qk of SDPAttention.forward: softmax
along the key axis of the masked scaled scores. -/
def SDPAttention.weights (self : SDPAttention) (t_k d : ℕ)
    (em : Option (ℕ → ℕ → Bool)) (q k : ℕ → ℕ → ℕ → ℝ) : ℕ → ℕ → ℕ → ℝ :=
  fun i a c => softmaxRow t_k (applyMasks em self.causal (sdpaScores d q k) i a) c

/-- Value blending of SDPAttention.forward: torch.bmm(dropout(sm_qk), v). -/
def SDPAttention.compute (self : SDPAttention) (t_k d : ℕ)
    (em : Option (ℕ → ℕ → Bool)) (keep : ℕ → ℕ → ℕ → Bool)
    (q k v : ℕ → ℕ → ℕ → ℝ) : ℕ → ℕ → ℕ → ℝ :=
  fun i a e => ∑ c ∈ Finset.range t_k,
    dropoutF self.dropout_p self.training keep (self.weights t_k d em q k) i a c * v i c e

/-- Failure modes of SDPAttention.forward: failure of one of the three
shape asserts, or a size error raised by the mask expand. -/
inductive SDPError where
  | precondition
  | maskExpand
  deriving DecidableEq

/-- SDPAttention.forward: assert equal batch sizes, equal q/k feature
dimensions and equal k/v time lengths; scale, mask, softmax, dropout and
blend; the result has shape b x t_q x dim_v. -/
def SDPAttention.forward (self : SDPAttention) (keep : ℕ → ℕ → ℕ → Bool)
    (q k v : Tensor3) : Except SDPError Tensor3 :=
  if q.b = k.b ∧ k.b = v.b ∧ q.d = k.d ∧ k.t = v.t then
    match expandedMask q.b k.t self.mask with
    | some em =>
      Except.ok ⟨q.b, q.t, v.d, self.compute k.t k.d em keep q.data k.data v.data⟩
    | none => Except.error SDPError.maskExpand
  else Except.error SDPError.precondition

/-- GlobalAttention module state: configuration (dim, context_dim,
batch-first flag), the weights and biases of linear_in and linear_out
(zero bias functions when constructed without bias), and the persisted
mask. -/
structure GlobalAttention where
  dim : ℕ
  context_dim : ℕ
  batch_first : Bool
  w1 : ℕ → ℕ → ℝ
  b1 : ℕ → ℝ
  w2 : ℕ → ℕ → ℝ
  b2 : ℕ → ℝ
  mask : Option (ℕ → ℕ → Bool)

/-- GlobalAttention.set_mask: store the argument, replacing any previous
mask. -/
def GlobalAttention.set_mask (self : GlobalAttention)
    (m : Option (ℕ → ℕ → Bool)) : GlobalAttention :=
  { self with mask := m }

/-- Raw attention scores of GlobalAttention.forward:
torch.bmm(context, linear_in(inputs).unsqueeze(2)).squeeze(2), the dot
product of each context vector with the projected query. -/
def GlobalAttention.scores (self : GlobalAttention) (inputs : ℕ → ℕ → ℝ)
    (ctx : ℕ → ℕ → ℕ → ℝ) : ℕ → ℕ → ℝ :=
  fun i s => ∑ x ∈ Finset.range self.context_dim,
    ctx i s x * linearAp self.dim self.w1 self.b1 (inputs i) x

/-- Masked fill on GlobalAttention scores: flagged positions become
negative infinity, the rest embed into EReal unchanged. -/
def maskFill (mask : Option (ℕ → ℕ → Bool)) (x : ℕ → ℕ → ℝ) :
    ℕ → ℕ → EReal :=
  fun i s =>
    match mask with
    | none => ((x i s : ℝ) : EReal)
    | some m => if m i s then (⊥ : EReal) else ((x i s : ℝ) : EReal)

/-- Post-softmax attention weights attn of GlobalAttention.forward. -/
def GlobalAttention.weights (self : GlobalAttention) (L : ℕ)
    (inputs : ℕ → ℕ → ℝ) (ctx : ℕ → ℕ → ℕ → ℝ) : ℕ → ℕ → ℝ :=
  fun i s => softmaxRow L (maskFill self.mask (self.scores inputs ctx) i) s

/-- GlobalAttention.forward over a context of source length L: transpose
the context to batch-first layout when needed, score, mask, softmax, blend,
concatenate the blended vector with the query, project through linear_out
and saturate with tanh; returns the pair (contextOutput, attn). -/
def GlobalAttention.forward (self : GlobalAttention) (L : ℕ)
    (inputs : ℕ → ℕ → ℝ) (context : ℕ → ℕ → ℕ → ℝ) :
    (ℕ → ℕ → ℝ) × (ℕ → ℕ → ℝ) :=
  let ctx := if self.batch_first then context else fun i s x => context s i x
  let attn := self.weights L inputs ctx
  let weightedContext : ℕ → ℕ → ℝ :=
    fun i x => ∑ s ∈ Finset.range L, attn i s * ctx i s x
  let contextCombined : ℕ → ℕ → ℝ := fun i j =>
    if j < self.context_dim then weightedContext i j
    else inputs i (j - self.context_dim)
  (fun i o =>
      Real.tanh (linearAp (self.dim + self.context_dim) self.w2 self.b2
        (contextCombined i) o),
    attn)

/-- MultiHeadAttention module state: configuration, the weights and biases
of linear_q, linear_k, linear_v and linear_out, and the single shared inner
SDPAttention instance. -/
structure MultiHeadAttention where
  input_size : ℕ
  output_size : ℕ
  num_heads : ℕ
  wq : ℕ → ℕ → ℝ
  bq : ℕ → ℝ
  wk : ℕ → ℕ → ℝ
  bk : ℕ → ℝ
  wv : ℕ → ℕ → ℝ
  bv : ℕ → ℝ
  wo : ℕ → ℕ → ℝ
  bo : ℕ → ℝ
  sdp_attention : SDPAttention

/-- MultiHeadAttention construction: the line
assert(input_size % num_heads == 0) fails on a violated divisibility, and
when num_heads = 0 the Python modulus itself raises ZeroDivisionError, so
construction fails then as well; on success the module holds the four
linear projections and a fresh SDPAttention with mask None. -/
def mhaInit (input_size output_size num_heads : ℕ)
    (wq : ℕ → ℕ → ℝ) (bq : ℕ → ℝ) (wk : ℕ → ℕ → ℝ) (bk : ℕ → ℝ)
    (wv : ℕ → ℕ → ℝ) (bv : ℕ → ℝ) (wo : ℕ → ℕ → ℝ) (bo : ℕ → ℝ)
    (dropout_p : ℝ) (training causal : Bool) : Option MultiHeadAttention :=
  if num_heads = 0 then none
  else if input_size % num_heads = 0 then
    some ⟨input_size, output_size, num_heads, wq, bq, wk, bk, wv, bv, wo, bo,
      ⟨causal, dropout_p, training, none⟩⟩
  else none

/-- MultiHeadAttention.set_mask: store the argument in the shared inner
SDPAttention instance. -/
def MultiHeadAttention.set_mask (self : MultiHeadAttention)
    (m : Option BoolTensor2) : MultiHeadAttention :=
  { self with sdp_attention := { self.sdp_attention with mask := m } }

/-- Chunk j of the feature axis, torch chunk with equal widths h: the
contiguous columns j*h to j*h+h-1. -/
def chunkAt (h j : ℕ) (x : ℕ → ℕ → ℕ → ℝ) : ℕ → ℕ → ℕ → ℝ :=
  fun i a e => x i a (j * h + e)

/-- torch.cat along the feature axis of a list of equal-width pieces. -/
def catChunks (h : ℕ) : List (ℕ → ℕ → ℕ → ℝ) → ℕ → ℕ → ℕ → ℝ
  | [], _, _, _ => 0
  | f :: rest, i, a, e => if e < h then f i a e else catChunks h rest i a (e - h)

/-- MultiHeadAttention.forward: project q, k, v pointwise, split each
projection into num_heads feature chunks, run the shared SDPAttention on
each chunk triple in the order of the Python loop, concatenate the per-head
outputs and project through linear_out.  The inner asserts of
SDPAttention.forward compare the chunk shapes, which agree here by
construction, so only the mask expand can fail. -/
def MultiHeadAttention.forward (self : MultiHeadAttention)
    (keep : ℕ → ℕ → ℕ → ℕ → Bool) (b t_q t_k : ℕ)
    (q k v : ℕ → ℕ → ℕ → ℝ) : Option (ℕ → ℕ → ℕ → ℝ) :=
  match expandedMask b t_k self.sdp_attention.mask with
  | none => none
  | some em =>
    let h := self.input_size / self.num_heads
    let qw := projAll self.input_size self.wq self.bq q
    let kw := projAll self.input_size self.wk self.bk k
    let vw := projAll self.input_size self.wv self.bv v
    let output := (List.range self.num_heads).map fun j =>
      self.sdp_attention.compute t_k h em (keep j)
        (chunkAt h j qw) (chunkAt h j kw) (chunkAt h j vw)
    some (projAll self.input_size self.wo self.bo (catChunks h output))

/-- Composition stated by the spec for claim C5, written from the words of
the spec as a second definition to compare with the source translation
MultiHeadAttention.forward: project q, k, v through their learned linear
maps, partition each projected feature axis into num_heads equal contiguous
chunks of width input_size / num_heads, run the single shared SDPAttention
independently on each head's chunk triple, concatenate the per-head outputs
along the feature axis (feature e of the concatenation comes from head
e / h at local offset e % h), and project through the output linear map. -/
def mhaSpec (self : MultiHeadAttention) (keep : ℕ → ℕ → ℕ → ℕ → Bool)
    (b t_q t_k : ℕ) (q k v : ℕ → ℕ → ℕ → ℝ) : Option (ℕ → ℕ → ℕ → ℝ) :=
  match expandedMask b t_k self.sdp_attention.mask with
  | none => none
  | some em =>
    let h := self.input_size / self.num_heads
    let headOut := fun j =>
      self.sdp_attention.compute t_k h em (keep j)
        (fun i a e => linearAp self.input_size self.wq self.bq (q i a) (j * h + e))
        (fun i a e => linearAp self.input_size self.wk self.bk (k i a) (j * h + e))
        (fun i a e => linearAp self.input_size self.wv self.bv (v i a) (j * h + e))
    some (fun i a o =>
      linearAp self.input_size self.wo self.bo (fun e => headOut (e / h) i a (e % h)) o)

/-- One method call against an SDPAttention module instance. -/
inductive SDPCall where
  | fwd (keep : ℕ → ℕ → ℕ → Bool) (q k v : Tensor3)
  | setM (m : Option BoolTensor2)

/-- SDPAttention.forward together with the post-call module state: the body
of forward mutates only the local tensor qk, never self, so the state
component is the receiver unchanged. -/
def SDPAttention.forwardS (self : SDPAttention) (keep : ℕ → ℕ → ℕ → Bool)
    (q k v : Tensor3) : Except SDPError Tensor3 × SDPAttention :=
  (self.forward keep q k v, self)

/-- State transition of one SDPAttention method call. -/
def SDPAttention.step (self : SDPAttention) : SDPCall → SDPAttention
  | SDPCall.fwd keep q k v => (self.forwardS keep q k v).2
  | SDPCall.setM m => self.set_mask m

/-- One method call against a GlobalAttention module instance. -/
inductive GACall where
  | fwd (L : ℕ) (inputs : ℕ → ℕ → ℝ) (context : ℕ → ℕ → ℕ → ℝ)
  | setM (m : Option (ℕ → ℕ → Bool))

/-- GlobalAttention.forward together with the post-call module state: the
body of forward mutates only the local tensor attn, never self. -/
def GlobalAttention.forwardS (self : GlobalAttention) (L : ℕ)
    (inputs : ℕ → ℕ → ℝ) (context : ℕ → ℕ → ℕ → ℝ) :
    ((ℕ → ℕ → ℝ) × (ℕ → ℕ → ℝ)) × GlobalAttention :=
  (self.forward L inputs context, self)

/-- State transition of one GlobalAttention method call. -/
def GlobalAttention.step (self : GlobalAttention) : GACall → GlobalAttention
  | GACall.fwd L inputs context => (self.forwardS L inputs context).2
  | GACall.setM m => self.set_mask m

/-- One method call against a MultiHeadAttention module instance. -/
inductive MHACall where
  | fwd (keep : ℕ → ℕ → ℕ → ℕ → Bool) (b t_q t_k : ℕ) (q k v : ℕ → ℕ → ℕ → ℝ)
  | setM (m : Option BoolTensor2)

/-- MultiHeadAttention.forward together with the post-call module state:
the body of forward never writes self or the inner SDPAttention. -/
def MultiHeadAttention.forwardS (self : MultiHeadAttention)
    (keep : ℕ → ℕ → ℕ → ℕ → Bool) (b t_q t_k : ℕ) (q k v : ℕ → ℕ → ℕ → ℝ) :
    Option (ℕ → ℕ → ℕ → ℝ) × MultiHeadAttention :=
  (self.forward keep b t_q t_k q k v, self)

/-- State transition of one MultiHeadAttention method call. -/
def MultiHeadAttention.step (self : MultiHeadAttention) :
    MHACall → MultiHeadAttention
  | MHACall.fwd keep b t_q t_k q k v => (self.forwardS keep b t_q t_k q k v).2
  | MHACall.setM m => self.set_mask m

/-- Fixture keep stream keeping every entry, for witnesses. -/
def wKeep : ℕ → ℕ → ℕ → Bool := fun _ _ _ => true

/-- Fixture per-head keep stream keeping every entry, for witnesses. -/
def wKeepH : ℕ → ℕ → ℕ → ℕ → Bool := fun _ _ _ _ => true

/-- Fixture 1 x 1 x 1 tensor of ones, for witnesses. -/
def wT : Tensor3 := ⟨1, 1, 1, fun _ _ _ => 1⟩

/-- Fixture SDPAttention in eval mode, rate 0, not causal, no mask. -/
def wSDP : SDPAttention := ⟨false, 0, false, none⟩

/-- Fixture causal SDPAttention in eval mode, rate 0, no mask. -/
def wSDPcausal : SDPAttention := ⟨true, 0, false, none⟩

/-- Output tensor of the fixture causal SDPAttention run on wT. -/
def wOut : Tensor3 :=
  ⟨1, 1, 1, SDPAttention.compute wSDPcausal 1 1 none wKeep wT.data wT.data wT.data⟩

/-- Fixture GlobalAttention with dim 1, zero weights, no mask. -/
def wGA : GlobalAttention :=
  ⟨1, 1, false, fun _ _ => 0, fun _ => 0, fun _ _ => 0, fun _ => 0, none⟩

/-- Fixture MultiHeadAttention with one head of width 1 and zero weights. -/
def wMHA : MultiHeadAttention :=
  ⟨1, 1, 1, fun _ _ => 0, fun _ => 0, fun _ _ => 0, fun _ => 0, fun _ _ => 0,
    fun _ => 0, fun _ _ => 0, fun _ => 0, wSDP⟩

/-- Fixture all-false 1 x 1 mask, for witnesses. -/
def wMaskB : Option BoolTensor2 := some ⟨1, 1, fun _ _ => false⟩

end

/-- expE maps the masked value (negative infinity) to 0. -/
theorem expE_bot : expE ⊥ = 0 := if_pos rfl

/-- expE agrees with the real exponential on embedded reals. -/
theorem expE_coe (r : ℝ) : expE (r : EReal) = Real.exp r := by
  rw [expE, if_neg (EReal.coe_ne_bot r), EReal.toReal_coe]

/-- expE is nonnegative everywhere. -/
theorem expE_nonneg (x : EReal) : 0 ≤ expE x := by
  rw [expE]
  split
  · exact le_refl 0
  · exact (Real.exp_pos _).le

/-- Softmax entries are nonnegative. -/
theorem softmaxRow_nonneg (n : ℕ) (x : ℕ → EReal) (c : ℕ) :
    0 ≤ softmaxRow n x c :=
  div_nonneg (expE_nonneg _) (Finset.sum_nonneg fun j _ => expE_nonneg (x j))

/-- A softmax row with at least one entry that is a genuine real (not the
masked negative infinity) sums to 1. -/
theorem softmaxRow_sum_one (n : ℕ) (x : ℕ → EReal)
    (h : ∃ c, c < n ∧ ∃ r : ℝ, x c = (r : EReal)) :
    ∑ c ∈ Finset.range n, softmaxRow n x c = 1 := by
  obtain ⟨c0, hc0, r, hr⟩ := h
  have hpos : 0 < ∑ j ∈ Finset.range n, expE (x j) := by
    refine Finset.sum_pos' (fun j _ => expE_nonneg (x j)) ?_
    refine ⟨c0, Finset.mem_range.mpr hc0, ?_⟩
    rw [hr, expE_coe]
    exact Real.exp_pos r
  unfold softmaxRow
  rw [← Finset.sum_div, div_self (ne_of_gt hpos)]

/-- Dropout is the identity in eval mode or at rate 0. -/
theorem dropoutF_disabled (p : ℝ) (training : Bool) (keep : ℕ → ℕ → ℕ → Bool)
    (x : ℕ → ℕ → ℕ → ℝ) (h : training = false ∨ p = 0) :
    dropoutF p training keep x = x := by
  funext i a c
  rw [dropoutF, if_pos h]

/-- With no stored mask the expand step trivially succeeds with no mask. -/
theorem expandedMask_none (b t : ℕ) : expandedMask b t none = some none := rfl

/-- Concatenation of m equal-width chunks read back at feature e: the value
comes from chunk e / h at local offset e % h. -/
theorem catChunks_map_range (h : ℕ) (hh : 0 < h) (m : ℕ)
    (g : ℕ → ℕ → ℕ → ℕ → ℝ) :
    ∀ i a e, e < m * h →
      catChunks h ((List.range m).map g) i a e = g (e / h) i a (e % h) := by
  induction m generalizing g with
  | zero =>
    intro i a e he
    rw [Nat.zero_mul] at he
    exact absurd he (Nat.not_lt_zero e)
  | succ m2 ih =>
    intro i a e he
    rw [List.range_succ_eq_map, List.map_cons, List.map_map]
    by_cases hlt : e < h
    · simp only [catChunks]
      rw [if_pos hlt, Nat.div_eq_of_lt hlt, Nat.mod_eq_of_lt hlt]
    · have hle : h ≤ e := Nat.le_of_not_lt hlt
      have hsub : e - h < m2 * h := by
        rw [Nat.succ_mul] at he
        omega
      have hdiv : e / h = (e - h) / h + 1 := by
        conv_lhs => rw [← Nat.sub_add_cancel hle]
        rw [Nat.add_div_right _ hh]
      have hmod : e % h = (e - h) % h := by
        conv_lhs => rw [← Nat.sub_add_cancel hle]
        rw [Nat.add_mod_right]
      simp only [catChunks]
      rw [if_neg hlt, hdiv, hmod, ih (g ∘ Nat.succ) i a (e - h) hsub]
      rfl

/-- A sequence of calls containing no set_mask leaves an SDPAttention
module state unchanged. -/
theorem sdpa_foldl_no_set (cs : List SDPCall) :
    ∀ s : SDPAttention, (∀ c ∈ cs, ∀ m, c ≠ SDPCall.setM m) →
      cs.foldl SDPAttention.step s = s := by
  induction cs with
  | nil => intro s _; rfl
  | cons c cs2 ih =>
    intro s h
    rw [List.foldl_cons]
    have hstep : SDPAttention.step s c = s := by
      cases c with
      | fwd keep q k v => rfl
      | setM m => exact absurd rfl (h _ (List.mem_cons_self _ _) m)
    rw [hstep]
    exact ih s fun c2 hc2 m => h c2 (List.mem_cons_of_mem _ hc2) m

/-- A sequence of calls containing no set_mask leaves a GlobalAttention
module state unchanged. -/
theorem ga_foldl_no_set (cs : List GACall) :
    ∀ s : GlobalAttention, (∀ c ∈ cs, ∀ m, c ≠ GACall.setM m) →
      cs.foldl GlobalAttention.step s = s := by
  induction cs with
  | nil => intro s _; rfl
  | cons c cs2 ih =>
    intro s h
    rw [List.foldl_cons]
    have hstep : GlobalAttention.step s c = s := by
      cases c with
      | fwd L inputs context => rfl
      | setM m => exact absurd rfl (h _ (List.mem_cons_self _ _) m)
    rw [hstep]
    exact ih s fun c2 hc2 m => h c2 (List.mem_cons_of_mem _ hc2) m

/-- A sequence of calls containing no set_mask leaves a MultiHeadAttention
module state unchanged. -/
theorem mha_foldl_no_set (cs : List MHACall) :
    ∀ s : MultiHeadAttention, (∀ c ∈ cs, ∀ m, c ≠ MHACall.setM m) →
      cs.foldl MultiHeadAttention.step s = s := by
  induction cs with
  | nil => intro s _; rfl
  | cons c cs2 ih =>
    intro s h
    rw [List.foldl_cons]
    have hstep : MultiHeadAttention.step s c = s := by
      cases c with
      | fwd keep b t_q t_k q k v => rfl
      | setM m => exact absurd rfl (h _ (List.mem_cons_self _ _) m)
    rw [hstep]
    exact ih s fun c2 hc2 m => h c2 (List.mem_cons_of_mem _ hc2) m

/-- Claim C1: in SDPAttention.forward, for every q of shape b x t_q x d and
k of shape b x t_k x d satisfying the preconditions, the pre-mask raw
scores equal the batched matrix product of q with the transpose of k over
the time axes, divided by the square root of the key feature dimension d:
entrywise, score (i, a, c) is the inner product of query row a with key row
c divided by sqrt d. -/
theorem C1_scaled_scores (q k : Tensor3) (hb : q.b = k.b) (hd : q.d = k.d)
    (i a c : ℕ) :
    sdpaScores k.d q.data k.data i a c
      = (∑ x ∈ Finset.range k.d, q.data i a x * k.data i c x) / Real.sqrt k.d := rfl

/-- Witness for C1 at the concrete one-entry tensor wT. -/
theorem C1_scaled_scores_witness :
    sdpaScores wT.d wT.data wT.data 0 0 0
      = (∑ x ∈ Finset.range wT.d, wT.data 0 0 x * wT.data 0 0 x) / Real.sqrt wT.d :=
  C1_scaled_scores wT wT rfl rfl 0 0 0

/-- Claim C4: SDPAttention.forward fails with a precondition error,
producing no result, exactly when the batch sizes of q, k, v are not all
identical, or the feature dimension of q differs from that of k, or the
time length of k differs from that of v; when all three conditions hold no
precondition error is raised. -/
theorem C4_precondition_errors (self : SDPAttention) (keep : ℕ → ℕ → ℕ → Bool)
    (q k v : Tensor3) :
    self.forward keep q k v = Except.error SDPError.precondition ↔
      ¬(q.b = k.b ∧ k.b = v.b ∧ q.d = k.d ∧ k.t = v.t) := by
  unfold SDPAttention.forward
  by_cases hcond : q.b = k.b ∧ k.b = v.b ∧ q.d = k.d ∧ k.t = v.t
  · rw [if_pos hcond]
    constructor
    · intro h
      cases hE : expandedMask q.b k.t self.mask with
      | none =>
        rw [hE] at h
        injection h with h2
        exact SDPError.noConfusion h2
      | some em =>
        rw [hE] at h
        exact Except.noConfusion h
    · intro hnot
      exact absurd hcond hnot
  · rw [if_neg hcond]
    exact iff_of_true rfl hcond

/-- Claim C3 evaluation at the failing input: with a stored mask of shape
1 x 2 (batch x t_q with t_q = 2) and inputs q of shape 1 x 2 x 1 and k, v
of shape 1 x 3 x 1 (t_k = 3, all stated preconditions satisfied), forward
raises a size error in mask.unsqueeze(1).expand(b, t_q, t_k) instead of
broadcasting the mask: the mask axis of length t_q = 2 lands on the key
axis of length t_k = 3. -/
theorem C3_mask_expand_error :
    SDPAttention.forward ⟨false, 0, false, some ⟨1, 2, fun _ _ => true⟩⟩
      (fun _ _ _ => true) ⟨1, 2, 1, fun _ _ _ => 1⟩ ⟨1, 3, 1, fun _ _ _ => 1⟩
      ⟨1, 3, 1, fun _ _ _ => 1⟩ = Except.error SDPError.maskExpand := rfl

/-- Claim C8 counterexample: at input_size = 0, num_heads = 0 the claim as
stated fails: 0 is evenly divisible by 0 (0 % 0 = 0 and 0 divides 0), yet
construction fails, because the Python expression 0 % 0 in the assert
raises ZeroDivisionError. -/
theorem C8_counterexample :
    (0 : ℕ) % 0 = 0 ∧ (0 : ℕ) ∣ 0 ∧
      mhaInit 0 0 0 (fun _ _ => 0) (fun _ => 0) (fun _ _ => 0) (fun _ => 0)
        (fun _ _ => 0) (fun _ => 0) (fun _ _ => 0) (fun _ => 0) 0 false false
        = none :=
  ⟨rfl, ⟨0, rfl⟩, rfl⟩

/-- Claim C8 as amended: MultiHeadAttention construction succeeds exactly
when num_heads is nonzero and input_size is evenly divisible by num_heads;
it fails fast at construction, before any forward pass, in every other
configuration (a violated divisibility fails the assert, and num_heads = 0
makes the Python modulus itself raise). -/
theorem C8_construction_iff (n o nh : ℕ) (wq2 : ℕ → ℕ → ℝ) (bq2 : ℕ → ℝ)
    (wk2 : ℕ → ℕ → ℝ) (bk2 : ℕ → ℝ) (wv2 : ℕ → ℕ → ℝ) (bv2 : ℕ → ℝ)
    (wo2 : ℕ → ℕ → ℝ) (bo2 : ℕ → ℝ) (p : ℝ) (tr ca : Bool) :
    (∃ cfg, mhaInit n o nh wq2 bq2 wk2 bk2 wv2 bv2 wo2 bo2 p tr ca = some cfg)
      ↔ nh ≠ 0 ∧ n % nh = 0 := by
  unfold mhaInit
  split_ifs with h0 hdvd
  · simp [h0]
  · simp [h0, hdvd]
  · simp [hdvd]

/-- Claim C9: for each of GlobalAttention, SDPAttention and
MultiHeadAttention, a mask set via set_mask persists unchanged across any
number of subsequent forward calls until set_mask is called again: forward
never modifies the stored mask, and set_mask replaces it with exactly its
argument (for MultiHeadAttention, in the single shared inner SDPAttention
instance). -/
theorem C9_mask_persistence
    (s : SDPAttention) (m : Option BoolTensor2) (cs : List SDPCall)
    (hs : ∀ c ∈ cs, ∀ m2, c ≠ SDPCall.setM m2)
    (g : GlobalAttention) (mg : Option (ℕ → ℕ → Bool)) (cg : List GACall)
    (hg : ∀ c ∈ cg, ∀ m2, c ≠ GACall.setM m2)
    (x : MultiHeadAttention) (mx : Option BoolTensor2) (cx : List MHACall)
    (hx : ∀ c ∈ cx, ∀ m2, c ≠ MHACall.setM m2) :
    (cs.foldl SDPAttention.step (s.set_mask m)).mask = m ∧
    (cg.foldl GlobalAttention.step (g.set_mask mg)).mask = mg ∧
    (cx.foldl MultiHeadAttention.step (x.set_mask mx)).sdp_attention.mask = mx := by
  refine ⟨?_, ?_, ?_⟩
  · rw [sdpa_foldl_no_set cs _ hs]; rfl
  · rw [ga_foldl_no_set cg _ hg]; rfl
  · rw [mha_foldl_no_set cx _ hx]; rfl

/-- Witness for C9: a set_mask followed by one forward call on the
SDPAttention fixture, and by no calls on the other two fixtures. -/
theorem C9_mask_persistence_witness :
    (([SDPCall.fwd wKeep wT wT wT]).foldl SDPAttention.step
        (wSDP.set_mask wMaskB)).mask = wMaskB ∧
    (([] : List GACall).foldl GlobalAttention.step (wGA.set_mask none)).mask
       = none ∧
    (([] : List MHACall).foldl MultiHeadAttention.step
        (wMHA.set_mask wMaskB)).sdp_attention.mask = wMaskB :=
  C9_mask_persistence wSDP wMaskB [SDPCall.fwd wKeep wT wT wT]
    (fun c hc m2 => by
      rw [List.mem_singleton] at hc
      subst hc
      exact fun hEq => SDPCall.noConfusion hEq)
    wGA none [] (fun c hc => absurd hc (List.not_mem_nil c))
    wMHA wMaskB [] (fun c hc => absurd hc (List.not_mem_nil c))

/-- Claim C10: with dropout rate 0 or the module in inference mode,
SDPAttention.forward is deterministic: two calls with identical q, k, v and
identical mask and causal configuration produce identical outputs, whatever
the dropout randomness would have been. -/
theorem C10_forward_deterministic (self : SDPAttention)
    (hd : self.dropout_p = 0 ∨ self.training = false)
    (keep1 keep2 : ℕ → ℕ → ℕ → Bool) (q k v : Tensor3) :
    self.forward keep1 q k v = self.forward keep2 q k v := by
  have hcomp : ∀ em, self.compute k.t k.d em keep1 q.data k.data v.data
      = self.compute k.t k.d em keep2 q.data k.data v.data := by
    intro em
    unfold SDPAttention.compute
    rw [dropoutF_disabled _ _ _ _ hd.symm, dropoutF_disabled _ _ _ _ hd.symm]
  unfold SDPAttention.forward
  split
  · cases hE : expandedMask q.b k.t self.mask with
    | none => rfl
    | some em =>
      dsimp only
      rw [hcomp em]
  · rfl

/-- Witness for C10 on the fixture module and tensors, with two keep
streams that differ everywhere. -/
theorem C10_forward_deterministic_witness :
    wSDP.forward wKeep wT wT wT = wSDP.forward (fun _ _ _ => false) wT wT wT :=
  C10_forward_deterministic wSDP (Or.inl rfl) wKeep (fun _ _ _ => false) wT wT wT

/-- Claim C2: with causal enabled, no external mask and dropout disabled,
the SDPAttention output at query position a is unchanged when only the key
and value entries at positions strictly after a are perturbed: two runs
whose keys and values agree at all positions c with c at most a produce the
same row a of the output. -/
theorem C2_causal_future_invariance
    (self : SDPAttention) (hc : self.causal = true) (hm : self.mask = none)
    (hd : self.training = false ∨ self.dropout_p = 0)
    (keep1 keep2 : ℕ → ℕ → ℕ → Bool) (q k1 v1 k2 v2 : Tensor3)
    (hkt : k2.t = k1.t) (hkd : k2.d = k1.d) (a : ℕ)
    (hk : ∀ i c x2, c ≤ a → k1.data i c x2 = k2.data i c x2)
    (hv : ∀ i c e, c ≤ a → v1.data i c e = v2.data i c e)
    (o1 o2 : Tensor3)
    (h1 : self.forward keep1 q k1 v1 = Except.ok o1)
    (h2 : self.forward keep2 q k2 v2 = Except.ok o2) :
    ∀ i e, o1.data i a e = o2.data i a e := by
  intro i e
  unfold SDPAttention.forward at h1 h2
  rw [hm, expandedMask_none] at h1 h2
  split at h1
  · dsimp only at h1
    injection h1 with h1
    split at h2
    · dsimp only at h2
      injection h2 with h2
      subst h1
      subst h2
      dsimp only
      rw [hkt, hkd]
      unfold SDPAttention.compute
      rw [dropoutF_disabled _ _ _ _ hd, dropoutF_disabled _ _ _ _ hd]
      have hrow : applyMasks none self.causal (sdpaScores k1.d q.data k1.data) i a
          = applyMasks none self.causal (sdpaScores k1.d q.data k2.data) i a := by
        funext c
        simp only [applyMasks, hc]
        by_cases hca : a + 1 ≤ c
        · rw [if_pos ⟨trivial, hca⟩, if_pos ⟨trivial, hca⟩]
        · have hnc : ¬(True ∧ a + 1 ≤ c) := fun hco => hca hco.2
          rw [if_neg hnc, if_neg hnc]
          refine congrArg _ ?_
          unfold sdpaScores bmm3 transpose12
          refine congrArg (· / Real.sqrt k1.d) ?_
          refine Finset.sum_congr rfl fun x2 hx2 => ?_
          rw [hk i c x2 (by omega)]
      have hw : ∀ c, self.weights k1.t k1.d none q.data k1.data i a c
          = self.weights k1.t k1.d none q.data k2.data i a c := by
        intro c
        unfold SDPAttention.weights
        rw [hrow]
      refine Finset.sum_congr rfl fun c hc2 => ?_
      rw [hw c]
      by_cases hca : c ≤ a
      · rw [hv i c e hca]
      · have hbot : applyMasks none self.causal (sdpaScores k1.d q.data k2.data) i a c
            = (⊥ : EReal) := by
          simp only [applyMasks, hc]
          rw [if_pos ⟨trivial, by omega⟩]
        have hz : self.weights k1.t k1.d none q.data k2.data i a c = 0 := by
          unfold SDPAttention.weights softmaxRow
          rw [hbot, expE_bot, zero_div]
        rw [hz, zero_mul, zero_mul]
    · exact Except.noConfusion h2
  · exact Except.noConfusion h1

/-- Witness for C2 on the causal fixture module with identical runs. -/
theorem C2_causal_future_invariance_witness :
    wOut.data 0 0 0 = wOut.data 0 0 0 :=
  C2_causal_future_invariance wSDPcausal rfl rfl (Or.inl rfl) wKeep wKeep
    wT wT wT wT wT rfl rfl 0 (fun _ _ _ _ => rfl) (fun _ _ _ _ => rfl)
    wOut wOut rfl rfl 0 0

/-- Claim C5: for every valid configuration (num_heads nonzero and dividing
input_size, as established at construction), MultiHeadAttention.forward
equals the spec composition mhaSpec: project q, k, v through the learned
linear maps, partition the feature axes into num_heads equal contiguous
chunks, run the single shared SDPAttention on each head's chunk triple,
concatenate the per-head outputs along the feature axis and project through
the output linear map. -/
theorem C5_multihead_composition (self : MultiHeadAttention)
    (h0 : self.num_heads ≠ 0) (hdvd : self.input_size % self.num_heads = 0)
    (keep : ℕ → ℕ → ℕ → ℕ → Bool) (b t_q t_k : ℕ) (q k v : ℕ → ℕ → ℕ → ℝ) :
    self.forward keep b t_q t_k q k v = mhaSpec self keep b t_q t_k q k v := by
  unfold MultiHeadAttention.forward mhaSpec
  cases hE : expandedMask b t_k self.sdp_attention.mask with
  | none => rfl
  | some em =>
    dsimp only
    refine congrArg some ?_
    funext i a o
    unfold projAll linearAp
    dsimp only
    refine congrArg (· + self.bo o) ?_
    refine Finset.sum_congr rfl fun j hj => ?_
    have hjn : j < self.input_size := Finset.mem_range.mp hj
    have hn0 : 0 < self.input_size := by omega
    have hdd : self.num_heads ∣ self.input_size := Nat.dvd_of_mod_eq_zero hdvd
    have hle : self.num_heads ≤ self.input_size := Nat.le_of_dvd hn0 hdd
    have hh : 0 < self.input_size / self.num_heads :=
      Nat.div_pos hle (Nat.pos_of_ne_zero h0)
    have hmul : self.num_heads * (self.input_size / self.num_heads)
        = self.input_size := Nat.mul_div_cancel' hdd
    rw [catChunks_map_range _ hh _ _ i a j (by rw [hmul]; exact hjn)]
    rfl

/-- Witness for C5 on the one-head fixture module. -/
theorem C5_multihead_composition_witness :
    wMHA.forward wKeepH 1 1 1 (fun _ _ _ => 1) (fun _ _ _ => 1) (fun _ _ _ => 1)
      = mhaSpec wMHA wKeepH 1 1 1 (fun _ _ _ => 1) (fun _ _ _ => 1)
          (fun _ _ _ => 1) :=
  C5_multihead_composition wMHA (by decide) (by decide) wKeepH 1 1 1
    (fun _ _ _ => 1) (fun _ _ _ => 1) (fun _ _ _ => 1)

/-- Claim C6: for every query of shape batch x dim and context reordered to
batch x sourceLen x dim (layout not batch-first), with no mask set,
GlobalAttention.forward returns the pair of tanh of the second linear map
applied to the concatenation of the softmax-weighted sum of context vectors
with the original query, and the softmax attention weights, where the
pre-softmax score of each context position is the dot product of that
context vector with the query projected through the first linear map. -/
theorem C6_global_attention (self : GlobalAttention) (hm : self.mask = none)
    (hbf : self.batch_first = false) (L : ℕ) (inputs : ℕ → ℕ → ℝ)
    (context : ℕ → ℕ → ℕ → ℝ) (i o s : ℕ) :
    (self.forward L inputs context).2 i s =
      Real.exp (∑ x ∈ Finset.range self.context_dim, context s i x *
          ((∑ j ∈ Finset.range self.dim, self.w1 x j * inputs i j) + self.b1 x)) /
        ∑ u ∈ Finset.range L,
          Real.exp (∑ x ∈ Finset.range self.context_dim, context u i x *
            ((∑ j ∈ Finset.range self.dim, self.w1 x j * inputs i j) + self.b1 x)) ∧
    (self.forward L inputs context).1 i o =
      Real.tanh ((∑ x ∈ Finset.range self.context_dim, self.w2 o x *
          ∑ u ∈ Finset.range L, (self.forward L inputs context).2 i u * context u i x) +
        (∑ x ∈ Finset.range self.dim, self.w2 o (self.context_dim + x) * inputs i x) +
        self.b2 o) := by
  have hctx : (if self.batch_first then context else fun i3 s3 x => context s3 i3 x)
      = fun i3 s3 x => context s3 i3 x := by
    rw [hbf]
    rfl
  have h2 : (self.forward L inputs context).2
      = self.weights L inputs (fun i3 s3 x => context s3 i3 x) := by
    unfold GlobalAttention.forward
    rw [hctx]
  constructor
  · rw [h2]
    unfold GlobalAttention.weights softmaxRow
    rw [hm]
    simp only [maskFill, GlobalAttention.scores, linearAp, expE_coe]
  · have h1 : (self.forward L inputs context).1 = fun i3 o3 =>
        Real.tanh (linearAp (self.dim + self.context_dim) self.w2 self.b2
          (fun j => if j < self.context_dim
            then ∑ u ∈ Finset.range L,
              self.weights L inputs (fun i4 s4 x => context s4 i4 x) i3 u * context u i3 j
            else inputs i3 (j - self.context_dim)) o3) := by
      unfold GlobalAttention.forward
      rw [hctx]
    rw [h1, h2]
    refine congrArg Real.tanh ?_
    unfold linearAp
    rw [Nat.add_comm self.dim self.context_dim, Finset.sum_range_add]
    congr 1
    congr 1
    · refine Finset.sum_congr rfl fun j hj => ?_
      dsimp only
      rw [if_pos (Finset.mem_range.mp hj)]
    · refine Finset.sum_congr rfl fun j hj => ?_
      dsimp only
      rw [if_neg (by omega)]
      refine congrArg (self.w2 o (self.context_dim + j) * ·) ?_
      refine congrArg (inputs i) ?_
      omega

/-- Witness for C6 on the fixture GlobalAttention with a one-element
context of ones. -/
theorem C6_global_attention_witness :
    (wGA.forward 1 (fun _ _ => 1) (fun _ _ _ => 1)).2 0 0 =
      Real.exp (∑ x ∈ Finset.range wGA.context_dim, (1 : ℝ) *
          ((∑ j ∈ Finset.range wGA.dim, wGA.w1 x j * 1) + wGA.b1 x)) /
        ∑ u ∈ Finset.range 1,
          Real.exp (∑ x ∈ Finset.range wGA.context_dim, (1 : ℝ) *
            ((∑ j ∈ Finset.range wGA.dim, wGA.w1 x j * 1) + wGA.b1 x)) ∧
    (wGA.forward 1 (fun _ _ => 1) (fun _ _ _ => 1)).1 0 0 =
      Real.tanh ((∑ x ∈ Finset.range wGA.context_dim, wGA.w2 0 x *
          ∑ u ∈ Finset.range 1,
            (wGA.forward 1 (fun _ _ => 1) (fun _ _ _ => 1)).2 0 u * 1) +
        (∑ x ∈ Finset.range wGA.dim, wGA.w2 0 (wGA.context_dim + x) * 1) +
        wGA.b2 0) :=
  C6_global_attention wGA rfl rfl 1 (fun _ _ => 1) (fun _ _ _ => 1) 0 0 0

/-- Claim C7: for every valid input with dropout disabled, the post-softmax
attention weights are nonnegative and each row sums to 1 along the attended
key/source axis for every query position with at least one unmasked key: in
SDPAttention (weights as blended into the output after the disabled
dropout) and in GlobalAttention (weights over sourceLen for every batch
element when no mask is applied and the source is nonempty). -/
theorem C7_softmax_rows
    (self : SDPAttention) (hd : self.training = false ∨ self.dropout_p = 0)
    (keep : ℕ → ℕ → ℕ → Bool) (t_k d : ℕ) (em : Option (ℕ → ℕ → Bool))
    (q k : ℕ → ℕ → ℕ → ℝ) (i a : ℕ)
    (hrow : ∃ c, c < t_k ∧ (∀ mm, em = some mm → mm i c = false) ∧
      (self.causal = true → c ≤ a))
    (g : GlobalAttention) (hg : g.mask = none) (L : ℕ) (hL : 0 < L)
    (inputs : ℕ → ℕ → ℝ) (context : ℕ → ℕ → ℕ → ℝ) (i2 : ℕ) :
    ((∀ c, 0 ≤ dropoutF self.dropout_p self.training keep
        (self.weights t_k d em q k) i a c) ∧
      ∑ c ∈ Finset.range t_k, dropoutF self.dropout_p self.training keep
        (self.weights t_k d em q k) i a c = 1) ∧
    ((∀ s, 0 ≤ (g.forward L inputs context).2 i2 s) ∧
      ∑ s ∈ Finset.range L, (g.forward L inputs context).2 i2 s = 1) := by
  rw [dropoutF_disabled _ _ _ _ hd]
  have hgw : (g.forward L inputs context).2
      = g.weights L inputs
          (if g.batch_first then context else fun i3 s3 x => context s3 i3 x) := rfl
  refine ⟨⟨fun c => softmaxRow_nonneg _ _ _, ?_⟩, fun s => ?_, ?_⟩
  · obtain ⟨c0, hc0, hmm, hcc⟩ := hrow
    have hfill : applyMasks em self.causal (sdpaScores d q k) i a c0
        = ((sdpaScores d q k i a c0 : ℝ) : EReal) := by
      simp only [applyMasks]
      have hnc : ¬(self.causal = true ∧ a + 1 ≤ c0) := by
        rintro ⟨hca, hle⟩
        have := hcc hca
        omega
      rw [if_neg hnc]
      cases em with
      | none => rfl
      | some mm =>
        dsimp only
        rw [hmm mm rfl]
        rfl
    exact softmaxRow_sum_one t_k
      (applyMasks em self.causal (sdpaScores d q k) i a)
      ⟨c0, hc0, sdpaScores d q k i a c0, hfill⟩
  · rw [hgw]
    exact softmaxRow_nonneg _ _ _
  · rw [hgw]
    have hfill : ∀ s2, maskFill g.mask
        (g.scores inputs
          (if g.batch_first then context else fun i3 s3 x => context s3 i3 x)) i2 s2
        = ((g.scores inputs
            (if g.batch_first then context else fun i3 s3 x => context s3 i3 x) i2 s2 : ℝ)
          : EReal) := by
      intro s2
      rw [hg]
      rfl
    exact softmaxRow_sum_one L _
      ⟨0, hL, g.scores inputs
        (if g.batch_first then context else fun i3 s3 x => context s3 i3 x) i2 0,
        hfill 0⟩

/-- Witness for C7 on the fixture modules with one key and one source
position. -/
theorem C7_softmax_rows_witness :
    ((∀ c, 0 ≤ dropoutF wSDP.dropout_p wSDP.training wKeep
        (wSDP.weights 1 1 none wT.data wT.data) 0 0 c) ∧
      ∑ c ∈ Finset.range 1, dropoutF wSDP.dropout_p wSDP.training wKeep
        (wSDP.weights 1 1 none wT.data wT.data) 0 0 c = 1) ∧
    ((∀ s, 0 ≤ (wGA.forward 1 (fun _ _ => 1) (fun _ _ _ => 1)).2 0 s) ∧
      ∑ s ∈ Finset.range 1, (wGA.forward 1 (fun _ _ => 1) (fun _ _ _ => 1)).2 0 s
        = 1) :=
  C7_softmax_rows wSDP (Or.inl rfl) wKeep 1 1 none wT.data wT.data 0 0
    ⟨0, Nat.one_pos, fun mm h => Option.noConfusion h, fun _ => Nat.le_refl 0⟩
    wGA rfl 1 Nat.one_pos (fun _ _ => 1) (fun _ _ _ => 1) 0
